import Mathlib

/-!
# MGPUsersGraph computation core: a shallow embedding

This file embeds the computation core of the MGPUsersGraph repository in
Lean 4 and settles the specified properties about it:

* `processFilter`, `buildTextLineCache`, `buildNodeSizeCache` and
  `calculateForceParams` from `src/worker.ts`, together with the
  module-level caches consulted by the worker message handler;
* the `WorkerPool` and `BatchProcessor` classes from `src/useFilter.ts`,
  modelled as explicit state machines driven by event lists;
* the wire-format decoding and the degree-computation pass of `loadGraph`
  in the application component.

JavaScript idioms are modelled as follows: a `Set<string>` is an
insertion-ordered duplicate-free `List String`; a `Map` or `Record` is an
insertion-ordered association list; `null` and `undefined` are
`Option.none`; JS numbers are idealised as `ℚ`, except where `Math.sqrt`
occurs, which is modelled with `Real.sqrt` (and the JS value `Infinity`
is modelled as `Option.none` in `ForceParams`); a promise is a
`FutureState` that can be settled at most once.
-/

namespace MGPUsersGraph

/-- Graph node, as in the `GraphNode` interface of `src/worker.ts`. -/
structure GraphNode where
  id : String
  name : String
  tags : List String
  color : String
  incomingCount : Nat
  outgoingCount : Nat
deriving DecidableEq, Repr

/-- Directed link, as in the `GraphLink` interface of `src/worker.ts`. -/
structure GraphLink where
  source : String
  target : String
deriving DecidableEq, Repr

/-- Result of the filter computation, as in the `FilterResult` interface
of `src/worker.ts`. -/
structure FilterResult where
  filteredNodeIds : List String
  filteredLinkIds : List String
  searchedNodeId : Option String
deriving DecidableEq, Repr

/-- JS `Set.prototype.add`: append the element unless already present, so
insertion order is preserved and the list stays duplicate-free. -/
def setAdd (s : List String) (x : String) : List String :=
  if x ∈ s then s else s ++ [x]

/-- Whitespace characters removed by JS `String.prototype.trim` (restricted
to the common ASCII whitespace; the claims only involve spaces). -/
def isJsWhitespace (c : Char) : Bool :=
  c == ' ' || c == '\t' || c == '\n' || c == '\r'

/-- JS `String.prototype.trim`: drop leading and trailing whitespace. -/
def jsTrim (s : String) : String :=
  String.mk (((s.data.dropWhile isJsWhitespace).reverse.dropWhile isJsWhitespace).reverse)

/-- JS `String.prototype.startsWith`. -/
def strStartsWith (s pre : String) : Bool :=
  go s.data pre.data
where
  go : List Char → List Char → Bool
    | _, [] => true
    | [], _ :: _ => false
    | c :: cs, p :: ps => c == p && go cs ps

/-- `processFilter` from `src/worker.ts` (lines 136-218).  The
`tagIndexCache` record is an association list from tag to node ids; the JS
check `typeof tag === "string"` is always true in this typed model.  The
`linkMap` built in the search branch is only ever read at the key of the
matched node, so it is modelled by the list of links incident to that node
in construction order (a self-loop contributes two entries, exactly as the
two `push` calls do). -/
def processFilter (nodes : List GraphNode) (links : List GraphLink)
    (searchTerm : String) (selectedTags : List String)
    (tagIndexCache : List (String × List String)) : FilterResult :=
  let sanitizedSearchTerm := jsTrim searchTerm
  let sanitizedTags := selectedTags.filter fun tag => (tagIndexCache.lookup tag).isSome
  let searchOutcome : Option (List String × Option String) :=
    if sanitizedSearchTerm ≠ "" then
      match nodes.find? (fun node => node.name == sanitizedSearchTerm) with
      | some matchedNode =>
          let seeded := setAdd [] matchedNode.id
          let incident := links.foldl (fun acc link =>
            acc ++ (if link.source == matchedNode.id then [link] else [])
                ++ (if link.target == matchedNode.id then [link] else [])) []
          let withNeighbors := incident.foldl (fun acc link =>
            setAdd acc (if link.source == matchedNode.id then link.target else link.source)) seeded
          some (withNeighbors, some matchedNode.id)
      | none => none
    else
      some ([], none)
  match searchOutcome with
  | none => { filteredNodeIds := [], filteredLinkIds := [], searchedNodeId := none }
  | some (searchIds, searchedNodeIdResult) =>
      let resultNodeIds :=
        if sanitizedTags.length > 0 then
          let tagFilteredNodeIds := sanitizedTags.foldl (fun acc tag =>
            ((tagIndexCache.lookup tag).getD []).foldl setAdd acc) []
          if sanitizedSearchTerm ≠ "" then
            searchIds.filter fun id =>
              tagFilteredNodeIds.contains id || searchedNodeIdResult == some id
          else
            tagFilteredNodeIds
        else
          searchIds
      let filteredLinkIds := links.filterMap fun link =>
        if resultNodeIds.contains link.source && resultNodeIds.contains link.target then
          some (link.source ++ "|" ++ link.target)
        else
          none
      { filteredNodeIds := resultNodeIds, filteredLinkIds := filteredLinkIds,
        searchedNodeId := searchedNodeIdResult }

/-- Number of UTF-16 code units of a character: JS `String.prototype.length`
counts code units, so astral characters count twice. -/
def utf16Width (c : Char) : Nat :=
  if c.toNat < 0x10000 then 1 else 2

/-- JS string length (UTF-16 code units) of a list of characters. -/
def utf16Len (cs : List Char) : Nat :=
  (cs.map utf16Width).sum

/-- The character loop of `buildTextLineCache` (`for (const char of
node.name)` iterates whole characters, while `currentLine.length` counts
UTF-16 code units): accumulate characters into `currentLine` and push it
onto `lines` as soon as its JS length reaches 25. -/
def wrapLoop : List Char → List (List Char) → List Char → List (List Char) × List Char
  | [], lines, currentLine => (lines, currentLine)
  | c :: rest, lines, currentLine =>
      let currentLine2 := currentLine ++ [c]
      if 25 ≤ utf16Len currentLine2 then
        wrapLoop rest (lines ++ [currentLine2]) []
      else
        wrapLoop rest lines currentLine2

/-- The per-node body of `buildTextLineCache`: run the wrapping loop over
the display name and push the trailing line if nonempty (`if (currentLine)
lines.push(currentLine)`). -/
def textLines (name : List Char) : List (List Char) :=
  let r := wrapLoop name [] []
  if r.2.isEmpty then r.1 else r.1 ++ [r.2]

/-- `buildTextLineCache` from `src/worker.ts` (lines 64-80), as an
association list from node id to wrapped lines. -/
def buildTextLineCache (nodes : List GraphNode) : List (String × List String) :=
  nodes.map fun node => (node.id, (textLines node.name.data).map String.mk)

/-- `buildNodeSizeCache` from `src/worker.ts` (lines 82-92).  The JS
expression `node.incomingCount + node.outgoingCount || 1` yields 1 when the
sum is 0 (falsy). -/
noncomputable def buildNodeSizeCache (nodes : List GraphNode)
    (nodeSizeMultiplier : ℚ) : List (String × ℝ) :=
  nodes.map fun node =>
    let connectionCount : Nat :=
      if node.incomingCount + node.outgoingCount = 0 then 1
      else node.incomingCount + node.outgoingCount
    (node.id, Real.sqrt (connectionCount : ℝ) * (nodeSizeMultiplier : ℝ))

/-- The `baseConfig` parameter of the force-parameter computation. -/
structure BaseConfig where
  centerStrength : ℚ
deriving DecidableEq, Repr

/-- Result of `calculateForceParams`.  `distanceMax := none` models the JS
value `Infinity` (unbounded). -/
structure ForceParams where
  distanceMax : Option ℝ
  centerStrength : ℚ

/-- `calculateForceParams` from `src/worker.ts` (lines 101-134). -/
noncomputable def calculateForceParams (filteredNodes : List GraphNode)
    (filteredLinks : List GraphLink) (baseConfig : BaseConfig)
    (canvasWidth canvasHeight : ℚ) : ForceParams :=
  let isolatedNodes := filteredNodes.filter fun node =>
    ! filteredLinks.any fun link => link.source == node.id || link.target == node.id
  if isolatedNodes.length = 0 then
    { distanceMax := none, centerStrength := baseConfig.centerStrength }
  else
    let diagonalLength : ℝ :=
      Real.sqrt (((canvasWidth * canvasWidth + canvasHeight * canvasHeight : ℚ) : ℝ))
    let distanceMax := diagonalLength / 6
    let isolatedRatio : ℚ := (isolatedNodes.length : ℚ) / (filteredNodes.length : ℚ)
    let enhancedCenterStrength := baseConfig.centerStrength * (1 + isolatedRatio * 1.2)
    { distanceMax := some distanceMax,
      centerStrength := min enhancedCenterStrength 3 }

/-- Number of filtered nodes with no incident link in the filtered link
set (the isolated nodes of the glossary). -/
def isolatedCount (filteredNodes : List GraphNode) (filteredLinks : List GraphLink) : Nat :=
  (filteredNodes.filter fun node =>
    ! filteredLinks.any fun link => link.source == node.id || link.target == node.id).length

/-- Compressed wire node `{n, t?, e?}` (see the `CompressedGraph` handling
in the application component and the wire format of the spec). -/
structure CompressedNode where
  n : String
  t : Option (List String)
  e : Option Nat
deriving DecidableEq, Repr

/-- Compressed wire graph `{d, l}`: a node array and an array of index
pairs into it. -/
structure CompressedGraph where
  d : List CompressedNode
  l : List (Nat × Nat)
deriving DecidableEq, Repr

/-- The node-decoding map of `loadGraph` (application component, both
variants): `config.e[node.e !== undefined ? node.e : 0]` is an array read
that yields `undefined` when the palette index is out of range, modelled
here by the string `"undefined"`. -/
def decodeNodes (configE : List String) (d : List CompressedNode) : List GraphNode :=
  d.map fun node =>
    { id := node.n, name := node.n, tags := node.t.getD [],
      color := (configE.get? (node.e.getD 0)).getD "undefined",
      incomingCount := 0, outgoingCount := 0 }

/-- The link-decoding map of `loadGraph`: `nodeArray[link[0]].id` (a JS
runtime error on an out-of-range index; modelled totally by the string
`"undefined"`, the claims only use in-range indices). -/
def decodeLinks (d : List CompressedNode) (l : List (Nat × Nat)) : List GraphLink :=
  l.map fun link =>
    { source := ((d.get? link.1).map CompressedNode.n).getD "undefined",
      target := ((d.get? link.2).map CompressedNode.n).getD "undefined" }

/-- Increment `incomingCount` of the first node whose id matches (JS
`nodeArray.find` returns the first match, and the in-place `++` mutates
only that object). -/
def bumpIncoming : List GraphNode → String → List GraphNode
  | [], _ => []
  | node :: rest, id =>
      if node.id = id then { node with incomingCount := node.incomingCount + 1 } :: rest
      else node :: bumpIncoming rest id

/-- Increment `outgoingCount` of the first node whose id matches. -/
def bumpOutgoing : List GraphNode → String → List GraphNode
  | [], _ => []
  | node :: rest, id =>
      if node.id = id then { node with outgoingCount := node.outgoingCount + 1 } :: rest
      else node :: bumpOutgoing rest id

/-- The degree-computation pass of `loadGraph` (both variants): for every
decoded link, the node found by `link.source` gets `incomingCount++` and
the node found by `link.target` gets `outgoingCount++`.  Both `find` calls
happen before the two increments, but since lookup is by id and the
increments do not change ids, sequential updating is equivalent. -/
def degreePass (nodeArray : List GraphNode) (links : List GraphLink) : List GraphNode :=
  links.foldl (fun arr link => bumpOutgoing (bumpIncoming arr link.source) link.target) nodeArray

/-- The result payload a worker posts back, a tagged variant over the four
task kinds (`FilterResult`, `TextCacheResult`, `NodeSizeResult`,
`ForceParamsResult` of `src/worker.ts`). -/
inductive TaskResult
  | filterRes (r : FilterResult)
  | textRes (textLineCache : List (String × List String))
  | sizeRes (nodeSizeCache : List (String × ℝ))
  | forceRes (p : ForceParams)

/-- JS property access `result.textLineCache` on an untyped result:
`none` models `undefined`. -/
def TaskResult.textLineCache? : TaskResult → Option (List (String × List String))
  | .textRes c => some c
  | _ => none

/-- JS property access `result.filteredNodeIds`. -/
def TaskResult.filteredNodeIds? : TaskResult → Option (List String)
  | .filterRes r => some r.filteredNodeIds
  | _ => none

/-- JS property access `result.filteredLinkIds`. -/
def TaskResult.filteredLinkIds? : TaskResult → Option (List String)
  | .filterRes r => some r.filteredLinkIds
  | _ => none

/-- JS property access `result.searchedNodeId`. -/
def TaskResult.searchedNodeId? : TaskResult → Option (Option String)
  | .filterRes r => some r.searchedNodeId
  | _ => none

/-- JS property access `result.nodeSizeCache`. -/
def TaskResult.nodeSizeCache? : TaskResult → Option (List (String × ℝ))
  | .sizeRes c => some c
  | _ => none

/-- JS property access on a force-parameter result (the whole result object
is stored). -/
def TaskResult.forceParams? : TaskResult → Option ForceParams
  | .forceRes p => some p
  | _ => none

/-- One inbound message of `src/worker.ts` (`FilterMessage`,
`TextCacheMessage`, `NodeSizeMessage` or `ForceParamsMessage`; the task id
travels separately). -/
inductive WorkerMessage
  | filter (nodes : List GraphNode) (links : List GraphLink) (searchTerm : String)
      (selectedTags : List String) (tagIndexCache : List (String × List String))
  | textCache (nodes : List GraphNode)
  | nodeSize (nodes : List GraphNode) (nodeSizeMultiplier : ℚ)
  | forceParams (filteredNodes : List GraphNode) (filteredLinks : List GraphLink)
      (baseConfig : BaseConfig) (isFiltered : Bool)
      (canvasWidth canvasHeight : ℚ)

/-- The module-level mutable caches of `src/worker.ts` (lines 94-99). -/
structure WorkerCacheState where
  cachedAllNodesFilterResult : Option FilterResult
  cachedTextLineCache : Option (List (String × List String))
  cachedNodeSizeCache : Option (List (String × ℝ))
  cachedForceParams : Option ForceParams
  lastFilteredNodeCount : Option Nat

/-- Initial worker state: every cache variable is `null`. -/
def initialWorkerState : WorkerCacheState :=
  { cachedAllNodesFilterResult := none, cachedTextLineCache := none,
    cachedNodeSizeCache := none, cachedForceParams := none,
    lastFilteredNodeCount := none }

/-- The `self.onmessage` handler of `src/worker.ts` (lines 220-341):
process one message against the current cache state and produce the new
state together with the posted result.  None of the branches can raise in
this model, so the `catch` clause (lines 342-347) is reflected at the pool
level by `PoolMessage.error` instead. -/
noncomputable def handleWorkerMessage (st : WorkerCacheState) (msg : WorkerMessage) :
    WorkerCacheState × TaskResult :=
  match msg with
  | .filter nodes links searchTerm selectedTags tagIndexCache =>
      if jsTrim searchTerm = "" ∧ selectedTags.length = 0 then
        match st.cachedAllNodesFilterResult with
        | some cached => (st, .filterRes cached)
        | none =>
            let result := processFilter nodes links searchTerm selectedTags tagIndexCache
            ({ st with cachedAllNodesFilterResult := some result }, .filterRes result)
      else
        (st, .filterRes (processFilter nodes links searchTerm selectedTags tagIndexCache))
  | .textCache nodes =>
      match st.cachedTextLineCache with
      | some cached => (st, .textRes cached)
      | none =>
          let c := buildTextLineCache nodes
          ({ st with cachedTextLineCache := some c }, .textRes c)
  | .nodeSize nodes nodeSizeMultiplier =>
      match st.cachedNodeSizeCache with
      | some cached => (st, .sizeRes cached)
      | none =>
          let c := buildNodeSizeCache nodes nodeSizeMultiplier
          ({ st with cachedNodeSizeCache := some c }, .sizeRes c)
  | .forceParams filteredNodes filteredLinks baseConfig _isFiltered canvasWidth canvasHeight =>
      match st.cachedForceParams with
      | some cached =>
          if st.lastFilteredNodeCount = some filteredNodes.length then
            (st, .forceRes cached)
          else
            let result := calculateForceParams filteredNodes filteredLinks baseConfig
              canvasWidth canvasHeight
            ({ st with
                cachedForceParams := some result
                lastFilteredNodeCount := some filteredNodes.length }, .forceRes result)
      | none =>
          let result := calculateForceParams filteredNodes filteredLinks baseConfig
            canvasWidth canvasHeight
          ({ st with
              cachedForceParams := some result
              lastFilteredNodeCount := some filteredNodes.length }, .forceRes result)

/-- JS `Map.prototype.set`: replace in place when the key exists (keeping
its position), otherwise append. -/
def mapSet {β : Type} (m : List (String × β)) (k : String) (v : β) : List (String × β) :=
  if (m.lookup k).isSome then m.map (fun p => if p.1 = k then (k, v) else p)
  else m ++ [(k, v)]

/-- JS `Map.prototype.delete`. -/
def mapDelete {β : Type} (m : List (String × β)) (k : String) : List (String × β) :=
  m.filter (fun p => !(p.1 == k))

/-- JS `Set.prototype.delete`. -/
def setDelete (s : List String) (x : String) : List String :=
  s.filter (fun y => !(y == x))

/-- Settlement state of a JS promise: a promise settles at most once, so
`resolve`/`reject` on an already-settled promise are no-ops. -/
inductive FutureState
  | pending
  | resolved (value : Option TaskResult)
  | rejected (reason : String)

/-- Whether a promise has settled in the rejected state. -/
def FutureState.isRejected : FutureState → Bool
  | .rejected _ => true
  | _ => false

/-- Settle the promise of the given task, but only if it is still pending. -/
def settle (futures : List (String × FutureState)) (taskId : String)
    (v : FutureState) : List (String × FutureState) :=
  futures.map fun p =>
    if p.1 = taskId then
      match p.2 with
      | .pending => (p.1, v)
      | _ => p
    else p

namespace WorkerPool

/-- The `Task` interface of `src/useFilter.ts` (lines 131-138).  The
`resolve`/`reject` handles of the promise created in `addTask` are
represented in `PoolState.futures`, keyed by task id. -/
structure PoolTask where
  id : String
  type : String
  priority : Int
  data : WorkerMessage

/-- The mutable state of the `WorkerPool` class: per-worker busy flags,
the task queue, the task-id map, and the settlement state of every promise
ever returned by `addTask`. -/
structure PoolState where
  workers : List Bool
  taskQueue : List PoolTask
  taskMap : List (String × PoolTask)
  futures : List (String × FutureState)

/-- The constructor (lines 150-161): `Math.max(2, Math.min(poolSize,
navigator.hardwareConcurrency || 4))` idle workers, nothing queued. -/
def init (poolSize hardwareConcurrency : Nat) : PoolState :=
  let hc := if hardwareConcurrency = 0 then 4 else hardwareConcurrency
  { workers := List.replicate (max 2 (min poolSize hc)) false,
    taskQueue := [], taskMap := [], futures := [] }

/-- Stable insertion into an ascending-priority list: equal priorities keep
their existing relative order, matching the stable JS
`sort((a, b) => a.priority - b.priority)`. -/
def insertByPriority (task : PoolTask) : List PoolTask → List PoolTask
  | [] => [task]
  | u :: us =>
      if u.priority ≤ task.priority then u :: insertByPriority task us
      else task :: u :: us

/-- The queue re-sort performed at the top of `processNextTask`. -/
def sortQueue (queue : List PoolTask) : List PoolTask :=
  queue.foldl (fun acc t => insertByPriority t acc) []

/-- `this.workers.find(w => !w.busy)`: index of the first idle worker. -/
def idleIndex (workers : List Bool) : Option Nat :=
  workers.findIdx? (fun busy => !busy)

/-- `processNextTask` (lines 174-190): re-sort the queue, and if it is
nonempty and some worker is idle, shift the head task and dispatch it to
that worker (marking it busy).  The posted message leaves the pool; its
eventual answer is a later `handleMessage` event. -/
def processNextTask (s : PoolState) : PoolState :=
  let s := { s with taskQueue := sortQueue s.taskQueue }
  if s.taskQueue.isEmpty then s
  else
    match idleIndex s.workers with
    | none => s
    | some i =>
        match s.taskQueue with
        | [] => s
        | _task :: rest =>
            { s with taskQueue := rest, workers := s.workers.set i true }

/-- `addTask` (lines 192-200).  The JS task id is generated as
`` `${type}-${Date.now()}-${Math.random()}` ``; the model takes the
generated id as a parameter. -/
def addTask (s : PoolState) (type : String) (data : WorkerMessage)
    (priority : Int) (taskId : String) : PoolState :=
  let task : PoolTask := { id := taskId, type := type, priority := priority, data := data }
  processNextTask
    { s with
        taskMap := mapSet s.taskMap taskId task
        taskQueue := s.taskQueue ++ [task]
        futures := s.futures ++ [(taskId, FutureState.pending)] }

/-- What a worker posts back: `{taskId, result}` on success, or
`{taskId, error}` from the catch handler of `src/worker.ts` (lines
342-347), in which case `result` is absent (`none`). -/
structure PoolMessage where
  taskId : String
  result : Option TaskResult
  error : Option String

/-- `handleMessage` (lines 163-172): `const { taskId, result } =
event.data` reads only those two fields — the `error` field of a failure
message is never read — then resolves the future of a known task with
`result`, frees the worker and dispatches the next task. -/
def handleMessage (s : PoolState) (idx : Nat) (event : PoolMessage) : PoolState :=
  let s :=
    match s.taskMap.lookup event.taskId with
    | some _ =>
        { s with
            futures := settle s.futures event.taskId (FutureState.resolved event.result)
            taskMap := mapDelete s.taskMap event.taskId }
    | none => s
  let s := { s with workers := s.workers.set idx false }
  processNextTask s

/-- `terminate` (lines 202-207): clear the queue and the task map and drop
the workers.  The futures of pending tasks are left untouched. -/
def terminate (s : PoolState) : PoolState :=
  { s with taskQueue := [], taskMap := [], workers := [] }

end WorkerPool

namespace BatchProcessor

/-- The merged batch object assembled by `executeUpdate`; every field is
optional because a batch only carries the kinds that produced results. -/
structure Batch where
  filteredNodeIds : Option (List String)
  filteredLinkIds : Option (List String)
  searchedNodeId : Option (Option String)
  textLineCache : Option (List (String × List String))
  nodeSizeCache : Option (List (String × ℝ))
  forceParams : Option ForceParams

/-- The batch object starts as `{}`. -/
def emptyBatch : Batch :=
  { filteredNodeIds := none, filteredLinkIds := none, searchedNodeId := none,
    textLineCache := none, nodeSizeCache := none, forceParams := none }

/-- One iteration of the merge loop of `executeUpdate` (lines 250-263):
dispatch on the task-id prefix and store the corresponding projection of
the result (`new Set(filteredNodeIds)` is an insertion-ordered set,
modelled by the list itself). -/
def applyResult (batch : Batch) (taskId : String) (result : TaskResult) : Batch :=
  if strStartsWith taskId "filter-" then
    { batch with
        filteredNodeIds := result.filteredNodeIds?
        filteredLinkIds := result.filteredLinkIds?
        searchedNodeId := result.searchedNodeId? }
  else if strStartsWith taskId "textCache-" then
    { batch with textLineCache := result.textLineCache? }
  else if strStartsWith taskId "nodeSize-" then
    { batch with nodeSizeCache := result.nodeSizeCache? }
  else if strStartsWith taskId "forceParams-" then
    { batch with forceParams := result.forceParams? }
  else batch

/-- The mutable state of the `BatchProcessor` class (lines 210-219),
extended with the observable history: whether `onUpdate` installed a
callback, whether a debounce timer is currently scheduled, and the list of
batches delivered to the callback so far. -/
structure State where
  results : List (String × TaskResult)
  pending : List String
  hasCallback : Bool
  timer : Bool
  delay : ℚ
  delivered : List Batch

/-- The constructor: empty maps, no callback, no timer. -/
def init (delay : ℚ) : State :=
  { results := [], pending := [], hasCallback := false, timer := false,
    delay := delay, delivered := [] }

/-- `registerTask` (lines 221-223). -/
def registerTask (s : State) (taskId : String) : State :=
  { s with pending := setAdd s.pending taskId }

/-- `scheduleUpdate` (lines 240-243): start a timer unless one is already
running. -/
def scheduleUpdate (s : State) : State :=
  if s.timer then s else { s with timer := true }

/-- `executeUpdate` (lines 245-267): clear the timer; if there are no
results or no callback, do nothing; otherwise merge all stored results
into one batch, clear them and deliver the batch. -/
def executeUpdate (s : State) : State :=
  let s := { s with timer := false }
  if s.results.isEmpty || !s.hasCallback then s
  else
    let batch := s.results.foldl (fun b p => applyResult b p.1 p.2) emptyBatch
    { s with results := [], delivered := s.delivered ++ [batch] }

/-- `addResult` (lines 225-229). -/
def addResult (s : State) (taskId : String) (result : TaskResult) : State :=
  let s := { s with
      results := mapSet s.results taskId result
      pending := setDelete s.pending taskId }
  if s.pending.isEmpty then scheduleUpdate s else s

/-- `failTask` (lines 231-234): drop the task from the pending set without
storing anything. -/
def failTask (s : State) (taskId : String) : State :=
  let s := { s with pending := setDelete s.pending taskId }
  if s.pending.isEmpty then scheduleUpdate s else s

/-- `clear` (lines 269-274). -/
def clear (s : State) : State :=
  { s with timer := false, results := [], pending := [] }

/-- The events driving the aggregator: the caller installing the callback,
task registration, success and failure reports, and the expiry of the
scheduled debounce timer (`fire` is a no-op when no timer is scheduled). -/
inductive Event
  | onUpdate
  | register (taskId : String)
  | addResult (taskId : String) (result : TaskResult)
  | failTask (taskId : String)
  | fire

/-- One event transition of the aggregator. -/
def step (s : State) : Event → State
  | .onUpdate => { s with hasCallback := true }
  | .register taskId => registerTask s taskId
  | .addResult taskId result => addResult s taskId result
  | .failTask taskId => failTask s taskId
  | .fire => if s.timer then executeUpdate s else s

/-- Run a sequence of events from a state. -/
def run (s : State) (events : List Event) : State :=
  events.foldl step s

end BatchProcessor

/-! ## Concrete sample data used by the evaluations below -/

/-- A sample node with id `a`. -/
def aliceNode : GraphNode :=
  { id := "a", name := "Alice", tags := [], color := "#fff",
    incomingCount := 0, outgoingCount := 0 }

/-- A sample node with id `b`. -/
def bobNode : GraphNode :=
  { id := "b", name := "Bob", tags := [], color := "#fff",
    incomingCount := 0, outgoingCount := 0 }

/-- A sample link from `a` to `b`. -/
def abLink : GraphLink := { source := "a", target := "b" }

/-- A filter result standing for the outcome of a superseded (older)
generation of tasks. -/
def staleFilterResult : FilterResult :=
  { filteredNodeIds := ["stale"], filteredLinkIds := [], searchedNodeId := none }

/-- A filter result standing for the outcome of the newest generation of
tasks. -/
def freshFilterResult : FilterResult :=
  { filteredNodeIds := ["fresh"], filteredLinkIds := [], searchedNodeId := none }

/-- A sample filter result for the aggregator scenario. -/
def sampleFilterResult : FilterResult :=
  { filteredNodeIds := ["a"], filteredLinkIds := [], searchedNodeId := none }

/-- A sample text-line cache payload for the aggregator scenario. -/
def sampleTextCache : List (String × List String) := [("a", ["Alice"])]

/-- A sample node-size cache payload for the aggregator scenario. -/
noncomputable def sampleSizeCache : List (String × ℝ) := [("a", 2)]

/-- A node whose display name has four characters. -/
def nodeX : GraphNode :=
  { id := "x", name := "xxxx", tags := [], color := "#fff",
    incomingCount := 0, outgoingCount := 0 }

/-- A node whose display name differs from the one of `nodeX`. -/
def nodeY : GraphNode :=
  { id := "y", name := "other name", tags := [], color := "#fff",
    incomingCount := 0, outgoingCount := 0 }

/-- A node whose 30-character display name wraps into two lines. -/
def wrapSampleNode : GraphNode :=
  { id := "w", name := "abcdefghijklmnopqrstuvwxyz0123", tags := [], color := "#fff",
    incomingCount := 0, outgoingCount := 0 }

/-! ## Helper lemmas for the text-wrap property -/

/-- A list of characters never has more characters than UTF-16 code
units. -/
theorem le_utf16Len (cs : List Char) : cs.length ≤ utf16Len cs := by
  induction cs with
  | nil => simp [utf16Len]
  | cons c rest ih =>
      have hc : 1 ≤ utf16Width c := by unfold utf16Width; split <;> simp
      simp only [utf16Len, List.map_cons, List.sum_cons, List.length_cons] at *
      omega

/-- Invariant of the wrapping loop: provided the current line is below the
push threshold and all accumulated lines are short, every produced line
has at most 25 characters, the concatenation of lines and leftover equals
the concatenation of the inputs, and the leftover stays below the
threshold. -/
theorem wrapLoop_spec (cs : List Char) : ∀ (lines : List (List Char)) (current : List Char),
    utf16Len current ≤ 24 → (∀ l ∈ lines, l.length ≤ 25) →
    (∀ l ∈ (wrapLoop cs lines current).1, l.length ≤ 25) ∧
    (wrapLoop cs lines current).1.flatten ++ (wrapLoop cs lines current).2
      = lines.flatten ++ current ++ cs ∧
    utf16Len (wrapLoop cs lines current).2 ≤ 24 := by
  induction cs with
  | nil =>
      intro lines current h1 h2
      refine ⟨h2, by simp [wrapLoop], h1⟩
  | cons c rest ih =>
      intro lines current h1 h2
      by_cases h25 : 25 ≤ utf16Len (current ++ [c])
      · have hlen : (current ++ [c]).length ≤ 25 := by
          have := le_utf16Len current
          simp only [List.length_append, List.length_cons, List.length_nil]
          omega
        have h2' : ∀ l ∈ lines ++ [current ++ [c]], l.length ≤ 25 := by
          intro l hl
          rcases List.mem_append.mp hl with h | h
          · exact h2 l h
          · simp only [List.mem_singleton] at h
            subst h
            exact hlen
        have hrec := ih (lines ++ [current ++ [c]]) [] (by simp [utf16Len]) h2'
        simp only [wrapLoop, if_pos h25]
        refine ⟨hrec.1, ?_, hrec.2.2⟩
        rw [hrec.2.1]
        simp [List.append_assoc]
      · have h1' : utf16Len (current ++ [c]) ≤ 24 := by omega
        have hrec := ih lines (current ++ [c]) h1' h2
        simp only [wrapLoop, if_neg h25]
        refine ⟨hrec.1, ?_, hrec.2.2⟩
        rw [hrec.2.1]
        simp [List.append_assoc]

/-- The per-node wrap: every line has at most 25 characters and the lines
concatenate back to the name. -/
theorem textLines_spec (name : List Char) :
    (∀ l ∈ textLines name, l.length ≤ 25) ∧ (textLines name).flatten = name := by
  have h := wrapLoop_spec name [] [] (by simp [utf16Len]) (by intro l hl; simp at hl)
  unfold textLines
  by_cases he : (wrapLoop name [] []).2.isEmpty
  · rw [if_pos he]
    have h2 : (wrapLoop name [] []).2 = [] := by
      simpa [List.isEmpty_iff] using he
    refine ⟨h.1, ?_⟩
    have := h.2.1
    rw [h2] at this
    simpa using this
  · rw [if_neg he]
    constructor
    · intro l hl
      rcases List.mem_append.mp hl with hh | hh
      · exact h.1 l hh
      · simp only [List.mem_singleton] at hh
        subst hh
        calc (wrapLoop name [] []).2.length ≤ utf16Len (wrapLoop name [] []).2 :=
              le_utf16Len _
        _ ≤ 24 := h.2.2
        _ ≤ 25 := by omega
    · have := h.2.1
      simp only [List.flatten_append, List.flatten_cons, List.flatten_nil, List.append_nil]
      simpa using this

/-! ## Helper lemmas for the aggregator state machine -/

namespace BatchProcessor

/-- Membership in a JS set after `add`. -/
theorem mem_setAdd (p : List String) (i x : String) : x ∈ setAdd p i ↔ x ∈ p ∨ x = i := by
  unfold setAdd
  split
  · rename_i h
    constructor
    · exact Or.inl
    · rintro (hx | rfl)
      exacts [hx, h]
  · simp [List.mem_append]

/-- Membership after a sequence of `add` calls. -/
theorem mem_foldl_setAdd (ids : List String) : ∀ (p : List String) (x : String),
    x ∈ ids.foldl setAdd p ↔ x ∈ p ∨ x ∈ ids := by
  induction ids with
  | nil => intro p x; simp
  | cons i rest ih =>
      intro p x
      simp only [List.foldl_cons, List.mem_cons]
      rw [ih, mem_setAdd]
      tauto

/-- Deleting every id of a covering list empties a JS set. -/
theorem foldl_setDelete_eq_nil (ids : List String) : ∀ (p : List String),
    (∀ x ∈ p, x ∈ ids) → ids.foldl setDelete p = [] := by
  induction ids with
  | nil =>
      intro p hp
      cases p with
      | nil => rfl
      | cons a as => exact absurd (hp a (by simp)) (by simp)
  | cons i rest ih =>
      intro p hp
      simp only [List.foldl_cons]
      apply ih
      intro x hx
      have hxp : x ∈ p := List.mem_of_mem_filter hx
      have hxne : x ≠ i := by
        have := List.of_mem_filter hx
        simpa using this
      rcases List.mem_cons.mp (hp x hxp) with h | h
      · exact absurd h hxne
      · exact h

/-- Unfolding one run step. -/
theorem run_cons (s : State) (e : Event) (es : List Event) :
    run s (e :: es) = run (step s e) es := rfl

/-- Runs compose over list append. -/
theorem run_append (s : State) (a b : List Event) :
    run s (a ++ b) = run (run s a) b := by
  simp [run, List.foldl_append]

/-- A registration phase only grows the pending set. -/
theorem run_register_phase (ids : List String) : ∀ (s : State),
    run s (ids.map Event.register) = { s with pending := ids.foldl setAdd s.pending } := by
  induction ids with
  | nil => intro s; simp [run]
  | cons i rest ih =>
      intro s
      simp only [List.map_cons, List.foldl_cons]
      rw [run_cons]
      show run (registerTask s i) (rest.map Event.register) = _
      rw [ih]
      rfl

/-- `scheduleUpdate` always leaves a scheduled timer behind. -/
theorem scheduleUpdate_timer (s : State) : (scheduleUpdate s).timer = true := by
  unfold scheduleUpdate
  split
  · rename_i h
    exact h
  · rfl

/-- `scheduleUpdate` changes nothing but the timer. -/
theorem scheduleUpdate_fields (s : State) :
    (scheduleUpdate s).results = s.results ∧ (scheduleUpdate s).pending = s.pending ∧
    (scheduleUpdate s).delivered = s.delivered ∧ (scheduleUpdate s).hasCallback = s.hasCallback := by
  unfold scheduleUpdate
  split <;> exact ⟨rfl, rfl, rfl, rfl⟩

/-- `failTask` stores no result, delivers nothing, removes the id from the
pending set and schedules the timer when the pending set empties. -/
theorem failTask_fields (s : State) (i : String) :
    (failTask s i).results = s.results ∧ (failTask s i).delivered = s.delivered ∧
    (failTask s i).hasCallback = s.hasCallback ∧
    (failTask s i).pending = setDelete s.pending i ∧
    ((failTask s i).pending = [] → (failTask s i).timer = true) := by
  unfold failTask
  by_cases h : (setDelete s.pending i).isEmpty
  · rw [if_pos h]
    obtain ⟨h1, h2, h3, h4⟩ := scheduleUpdate_fields { s with pending := setDelete s.pending i }
    exact ⟨h1, h3, h4, h2, fun _ => scheduleUpdate_timer _⟩
  · rw [if_neg h]
    refine ⟨rfl, rfl, rfl, rfl, fun hp => ?_⟩
    exact absurd (List.isEmpty_iff.mpr hp) h

/-- A failure phase keeps the result map empty, delivers nothing, deletes
the failed ids from the pending set and, once the pending set is empty,
has a timer scheduled. -/
theorem run_fail_phase (ids : List String) : ∀ (s : State),
    s.results = [] → (s.pending = [] → s.timer = true) →
    (run s (ids.map Event.failTask)).results = [] ∧
    (run s (ids.map Event.failTask)).delivered = s.delivered ∧
    (run s (ids.map Event.failTask)).hasCallback = s.hasCallback ∧
    (run s (ids.map Event.failTask)).pending = ids.foldl setDelete s.pending ∧
    ((run s (ids.map Event.failTask)).pending = [] →
      (run s (ids.map Event.failTask)).timer = true) := by
  induction ids with
  | nil =>
      intro s h1 h2
      exact ⟨h1, rfl, rfl, rfl, h2⟩
  | cons i rest ih =>
      intro s h1 h2
      simp only [List.map_cons, List.foldl_cons]
      rw [run_cons]
      show (run (failTask s i) (rest.map Event.failTask)).results = [] ∧ _
      obtain ⟨f1, f2, f3, f4, f5⟩ := failTask_fields s i
      obtain ⟨g1, g2, g3, g4, g5⟩ := ih (failTask s i) (f1.trans h1) f5
      rw [f4] at g4
      exact ⟨g1, g2.trans f2, g3.trans f3, g4, g5⟩

/-- The timer firing with an empty result map only clears the timer: the
merge is skipped and nothing is delivered. -/
theorem executeUpdate_no_results (s : State) (h : s.results = []) :
    executeUpdate s = { s with timer := false } := by
  unfold executeUpdate
  simp [h]

end BatchProcessor

/-! ## The claimed properties -/

/-- C1: the claim states that running the filter with an empty (or
whitespace-only) search term and an empty selected-tag set returns the
full node id set, the full link id set and a null `searchedNodeId`.  The
code disagrees: `processFilter` starts from an empty result set and, with
no search and no tags, neither branch ever adds a node, so the worker
returns — and stores under the name `cachedAllNodesFilterResult` — empty
id sets.  On the two-node graph `a → b` the full sets would be
`["a", "b"]` and `["a|b"]`, yet both returned sets are empty (only the
null searched id matches the claim). -/
theorem processFilter_empty_filter_returns_empty_sets :
    (processFilter [aliceNode, bobNode] [abLink] "" [] []
      = { filteredNodeIds := [], filteredLinkIds := [], searchedNodeId := none }) ∧
    (processFilter [aliceNode, bobNode] [abLink] "   " [] []
      = { filteredNodeIds := [], filteredLinkIds := [], searchedNodeId := none }) ∧
    ((handleWorkerMessage initialWorkerState
        (.filter [aliceNode, bobNode] [abLink] "" [] [])).1.cachedAllNodesFilterResult
      = some { filteredNodeIds := [], filteredLinkIds := [], searchedNodeId := none }) ∧
    [aliceNode, bobNode].map GraphNode.id = ["a", "b"] ∧
    ([] : List String) ≠ ["a", "b"] := by
  exact ⟨by decide, by decide, rfl, by decide, by decide⟩

/-- C2: the claim states that after the degree pass `incomingCount` of a
node counts the decoded links targeting it and `outgoingCount` those
leaving it.  The code increments `incomingCount` of the node found by
`link.source` and `outgoingCount` of the node found by `link.target`, so
the two counts are swapped: decoding the wire graph with nodes `[A, B]`
and the single link `(0, 1)` (that is, `A → B`) yields
`A.incomingCount = 1` although no decoded link targets `A`, and
`B.outgoingCount = 1` although no decoded link leaves `B`. -/
theorem degreePass_counts_swapped :
    let d : List CompressedNode :=
      [{ n := "A", t := none, e := none }, { n := "B", t := none, e := none }]
    let links := decodeLinks d [(0, 1)]
    ((degreePass (decodeNodes ["#eceff4"] d) links).map
        fun n => (n.id, n.incomingCount, n.outgoingCount)) = [("A", 1, 0), ("B", 0, 1)] ∧
    (links.filter fun l => l.target == "A").length = 0 ∧
    (links.filter fun l => l.source == "A").length = 1 ∧
    (links.filter fun l => l.target == "B").length = 1 ∧
    (links.filter fun l => l.source == "B").length = 0 := by
  exact ⟨by decide, by decide, by decide, by decide, by decide⟩

/-- C3: the claim states that a result belonging to a superseded
generation is never merged into a batch delivered for a later generation.
`BatchProcessor` has no notion of generations: with a first-generation
filter task registered, a second-generation filter task registered after
it (superseding it), the fresh result arriving first and the stale one
arriving last, the single delivered batch carries the superseded
generation's node ids — the late stale arrival clobbers the fresh one. -/
theorem batchProcessor_merges_superseded_generation :
    let events : List BatchProcessor.Event := [.onUpdate,
      .register "filter-gen1",
      .register "filter-gen2",
      .addResult "filter-gen2" (.filterRes freshFilterResult),
      .addResult "filter-gen1" (.filterRes staleFilterResult),
      .fire]
    (BatchProcessor.run (BatchProcessor.init 50) events).delivered
      = [{ filteredNodeIds := some ["stale"]
           filteredLinkIds := some []
           searchedNodeId := some none
           textLineCache := none
           nodeSizeCache := none
           forceParams := none }] := by
  rfl

/-- C4: the claim states that shutting the pool down rejects the future of
every still-pending task.  `terminate` clears the queue and the task map
and drops the workers but never touches the futures: with two tasks in
flight and one still queued at shutdown, all three futures are still
pending afterwards — none was rejected, so their callers hang forever. -/
theorem terminate_leaves_pending_futures_unsettled :
    let p1 : WorkerPool.PoolState := WorkerPool.addTask (WorkerPool.init 4 2) "filter" (.textCache []) 10 "filter-t1"
    let p2 := WorkerPool.addTask p1 "filter" (.textCache []) 50 "filter-t2"
    let p3 := WorkerPool.addTask p2 "filter" (.textCache []) 50 "filter-t3"
    let p4 := WorkerPool.terminate p3
    p3.futures.lookup "filter-t1" = some FutureState.pending ∧
    p3.futures.lookup "filter-t2" = some FutureState.pending ∧
    p3.futures.lookup "filter-t3" = some FutureState.pending ∧
    p4.futures.lookup "filter-t1" = some FutureState.pending ∧
    p4.futures.lookup "filter-t2" = some FutureState.pending ∧
    p4.futures.lookup "filter-t3" = some FutureState.pending ∧
    p4.taskMap = [] ∧ p4.taskQueue = [] ∧ p4.workers = [] := by
  exact ⟨rfl, rfl, rfl, rfl, rfl, rfl, rfl, rfl, rfl⟩

/-- C5: the claim states that a task raising inside a worker settles its
future in the rejected state.  The worker does post `{taskId, error}` from
its catch handler, but `handleMessage` destructures only
`{taskId, result}` and unconditionally calls `task.resolve(result)`: the
future of the failed task is resolved with `undefined` (`none`), never
rejected.  The rest of the claim does hold in this scenario — the other
futures stay untouched and the freed worker immediately serves the next
queued task. -/
theorem worker_error_resolves_future_instead_of_rejecting :
    let p1 : WorkerPool.PoolState := WorkerPool.addTask (WorkerPool.init 4 2) "filter" (.textCache []) 10 "filter-t1"
    let p2 := WorkerPool.addTask p1 "filter" (.textCache []) 50 "filter-t2"
    let p3 := WorkerPool.addTask p2 "filter" (.textCache []) 50 "filter-t3"
    let p4 := WorkerPool.handleMessage p3 0
      { taskId := "filter-t1", result := none, error := some "boom" }
    p4.futures.lookup "filter-t1" = some (FutureState.resolved none) ∧
    (p4.futures.lookup "filter-t1").map FutureState.isRejected = some false ∧
    p4.futures.lookup "filter-t2" = some FutureState.pending ∧
    p4.futures.lookup "filter-t3" = some FutureState.pending ∧
    p4.workers = [true, true] ∧ p4.taskQueue = [] := by
  exact ⟨rfl, rfl, rfl, rfl, rfl, rfl⟩

/-- C6: the claim states that the worker always answers a message with the
result computed from that message's own payload, never a cached value for
different node/link arrays.  The module-level caches are keyed by mere
presence: a second `textCache` message carrying a different node array is
answered with the cache built from the first payload, which differs from
the result of computing on its own payload. -/
theorem worker_textCache_returns_stale_cache :
    ((handleWorkerMessage
        (handleWorkerMessage initialWorkerState (.textCache [nodeX])).1
        (.textCache [nodeY])).2.textLineCache?
      = some (buildTextLineCache [nodeX])) ∧
    buildTextLineCache [nodeX] ≠ buildTextLineCache [nodeY] := by
  exact ⟨rfl, by decide⟩

/-- C7: with three registered task ids of three distinct kinds, resolving
the first two triggers no callback (and schedules no timer), resolving the
third schedules the debounce timer but still delivers nothing, and the
timer firing delivers exactly one batch carrying the merged results keyed
by all three kinds. -/
theorem batchProcessor_three_tasks_single_merged_callback :
    let s4 : BatchProcessor.State := BatchProcessor.run (BatchProcessor.init 50) [.onUpdate,
      .register "filter-1", .register "textCache-1", .register "nodeSize-1"]
    let s5 := BatchProcessor.step s4 (.addResult "filter-1" (.filterRes sampleFilterResult))
    let s6 := BatchProcessor.step s5 (.addResult "textCache-1" (.textRes sampleTextCache))
    let s7 := BatchProcessor.step s6 (.addResult "nodeSize-1" (.sizeRes sampleSizeCache))
    let s8 := BatchProcessor.step s7 .fire
    (s5.delivered = [] ∧ s5.timer = false) ∧
    (s6.delivered = [] ∧ s6.timer = false) ∧
    (s7.delivered = [] ∧ s7.timer = true) ∧
    s8.delivered
      = [{ filteredNodeIds := some ["a"]
           filteredLinkIds := some []
           searchedNodeId := some none
           textLineCache := some sampleTextCache
           nodeSizeCache := some sampleSizeCache
           forceParams := none }] := by
  exact ⟨⟨rfl, rfl⟩, ⟨rfl, rfl⟩, ⟨rfl, rfl⟩, rfl⟩

/-- C8: `calculateForceParams` returns an unbounded `distanceMax` and the
base `centerStrength` exactly when every filtered node has at least one
incident filtered link; otherwise it returns
`distanceMax = sqrt(canvasWidth² + canvasHeight²) / 6` and
`centerStrength = min(base × (1 + isolatedRatio × 1.2), 3)` with
`isolatedRatio = isolatedCount / totalFilteredCount`. -/
theorem calculateForceParams_spec (filteredNodes : List GraphNode)
    (filteredLinks : List GraphLink) (baseConfig : BaseConfig) (canvasWidth canvasHeight : ℚ) :
    calculateForceParams filteredNodes filteredLinks baseConfig canvasWidth canvasHeight =
      if ∀ node ∈ filteredNodes, ∃ link ∈ filteredLinks,
          link.source = node.id ∨ link.target = node.id then
        { distanceMax := none, centerStrength := baseConfig.centerStrength }
      else
        { distanceMax := some (Real.sqrt
            (((canvasWidth * canvasWidth + canvasHeight * canvasHeight : ℚ) : ℝ)) / 6)
          centerStrength := min (baseConfig.centerStrength *
            (1 + ((isolatedCount filteredNodes filteredLinks : ℚ) /
              (filteredNodes.length : ℚ)) * 1.2)) 3 } := by
  have key : ((filteredNodes.filter fun node =>
      ! filteredLinks.any fun link => link.source == node.id || link.target == node.id).length = 0)
      ↔ (∀ node ∈ filteredNodes, ∃ link ∈ filteredLinks,
          link.source = node.id ∨ link.target = node.id) := by
    rw [List.length_eq_zero, List.filter_eq_nil_iff]
    simp [or_iff_not_imp_left]
  by_cases h : ∀ node ∈ filteredNodes, ∃ link ∈ filteredLinks,
      link.source = node.id ∨ link.target = node.id
  · simp only [calculateForceParams, isolatedCount]
    rw [if_pos (key.mpr h), if_pos h]
  · simp only [calculateForceParams, isolatedCount]
    rw [if_neg (fun hc => h (key.mp hc)), if_neg h]

/-- C9: every entry of the text-line cache belongs to an input node, none
of its lines exceeds 25 whole characters (characters, not UTF-16 code
units, so no multi-character glyph is ever split), and the concatenation
of the lines is exactly the node's display name. -/
theorem buildTextLineCache_wrap_sound (nodes : List GraphNode) :
    ∀ p ∈ buildTextLineCache nodes,
      (∀ line ∈ p.2, line.data.length ≤ 25) ∧
      ∃ node ∈ nodes, p.1 = node.id ∧ (p.2.map String.data).flatten = node.name.data := by
  intro p hp
  unfold buildTextLineCache at hp
  rcases List.mem_map.mp hp with ⟨node, hn, rfl⟩
  constructor
  · intro line hl
    rcases List.mem_map.mp hl with ⟨l, hl2, rfl⟩
    exact (textLines_spec node.name.data).1 l hl2
  · refine ⟨node, hn, rfl, ?_⟩
    simp only [List.map_map]
    have hcomp : (String.data ∘ String.mk) = id := funext fun _ => rfl
    rw [hcomp, List.map_id]
    exact (textLines_spec node.name.data).2

/-- Witness for C9 at a concrete 30-character name: the cache entry is
`("w", ["abcdefghijklmnopqrstuvwxy", "z0123"])` and satisfies the
property. -/
theorem buildTextLineCache_wrap_sound_witness :
    ((("w", ["abcdefghijklmnopqrstuvwxy", "z0123"]) : String × List String)
        ∈ buildTextLineCache [wrapSampleNode]) ∧
    ((∀ line ∈ (("w", ["abcdefghijklmnopqrstuvwxy", "z0123"]) : String × List String).2,
        line.data.length ≤ 25) ∧
      ∃ node ∈ [wrapSampleNode],
        (("w", ["abcdefghijklmnopqrstuvwxy", "z0123"]) : String × List String).1 = node.id ∧
        (((("w", ["abcdefghijklmnopqrstuvwxy", "z0123"]) : String × List String)).2.map
            String.data).flatten = node.name.data) :=
  ⟨by decide, buildTextLineCache_wrap_sound [wrapSampleNode]
    ("w", ["abcdefghijklmnopqrstuvwxy", "z0123"]) (by decide)⟩

/-- C10: when every registered task of a batch fails, the debounce timer
is scheduled and fires, but the merge is silently skipped: with a callback
installed, no batch is ever delivered. -/
theorem allFailed_batch_delivers_no_callback (ids : List String) (h : ids ≠ []) :
    (BatchProcessor.run (BatchProcessor.init 50)
      ([BatchProcessor.Event.onUpdate] ++ ids.map BatchProcessor.Event.register
        ++ ids.map BatchProcessor.Event.failTask)).timer = true ∧
    (BatchProcessor.run (BatchProcessor.init 50)
      ([BatchProcessor.Event.onUpdate] ++ ids.map BatchProcessor.Event.register
        ++ ids.map BatchProcessor.Event.failTask
        ++ [BatchProcessor.Event.fire])).delivered = [] ∧
    (BatchProcessor.run (BatchProcessor.init 50)
      ([BatchProcessor.Event.onUpdate] ++ ids.map BatchProcessor.Event.register
        ++ ids.map BatchProcessor.Event.failTask
        ++ [BatchProcessor.Event.fire])).hasCallback = true := by
  obtain ⟨a, tl, rfl⟩ : ∃ a tl, ids = a :: tl := by
    cases ids with
    | nil => exact absurd rfl h
    | cons a tl => exact ⟨a, tl, rfl⟩
  set ids := a :: tl with hids
  have hsReg : BatchProcessor.run (BatchProcessor.init 50)
      ([BatchProcessor.Event.onUpdate] ++ ids.map BatchProcessor.Event.register)
      = { results := [], pending := ids.foldl setAdd [], hasCallback := true,
          timer := false, delay := 50, delivered := [] } := by
    show BatchProcessor.run (BatchProcessor.step (BatchProcessor.init 50)
      BatchProcessor.Event.onUpdate) (ids.map BatchProcessor.Event.register) = _
    rw [BatchProcessor.run_register_phase]
    rfl
  have hpendne : (ids.foldl setAdd ([] : List String)) ≠ [] := by
    have : a ∈ ids.foldl setAdd ([] : List String) :=
      (BatchProcessor.mem_foldl_setAdd ids [] a).mpr (Or.inr (by simp [hids]))
    exact List.ne_nil_of_mem this
  obtain ⟨q1, q2, q3, q4, q5⟩ := BatchProcessor.run_fail_phase ids
    (BatchProcessor.run (BatchProcessor.init 50)
      ([BatchProcessor.Event.onUpdate] ++ ids.map BatchProcessor.Event.register))
    (by rw [hsReg]) (by rw [hsReg]; intro hp; exact absurd hp hpendne)
  have hpend : (BatchProcessor.run
      (BatchProcessor.run (BatchProcessor.init 50)
        ([BatchProcessor.Event.onUpdate] ++ ids.map BatchProcessor.Event.register))
      (ids.map BatchProcessor.Event.failTask)).pending = [] := by
    rw [q4, hsReg]
    apply BatchProcessor.foldl_setDelete_eq_nil
    intro x hx
    rcases (BatchProcessor.mem_foldl_setAdd ids [] x).mp hx with hc | hc
    · exact absurd hc (by simp)
    · exact hc
  have htimer := q5 hpend
  set SF := BatchProcessor.run
    (BatchProcessor.run (BatchProcessor.init 50)
      ([BatchProcessor.Event.onUpdate] ++ ids.map BatchProcessor.Event.register))
    (ids.map BatchProcessor.Event.failTask) with hSF
  have hstep : BatchProcessor.run SF [BatchProcessor.Event.fire] = { SF with timer := false } := by
    show BatchProcessor.step SF BatchProcessor.Event.fire = _
    simp only [BatchProcessor.step]
    rw [htimer]
    simp only [if_true]
    exact BatchProcessor.executeUpdate_no_results SF q1
  refine ⟨?_, ?_, ?_⟩
  · rw [BatchProcessor.run_append]
    exact htimer
  · rw [BatchProcessor.run_append, BatchProcessor.run_append, hstep]
    exact q2.trans (by rw [hsReg])
  · rw [BatchProcessor.run_append, BatchProcessor.run_append, hstep]
    exact q3.trans (by rw [hsReg])

/-- Witness for C10 at the one-element id list `["filter-a"]`. -/
theorem allFailed_batch_delivers_no_callback_witness :
    ((["filter-a"] : List String) ≠ []) ∧
    ((BatchProcessor.run (BatchProcessor.init 50)
      ([BatchProcessor.Event.onUpdate] ++ ["filter-a"].map BatchProcessor.Event.register
        ++ ["filter-a"].map BatchProcessor.Event.failTask)).timer = true ∧
    (BatchProcessor.run (BatchProcessor.init 50)
      ([BatchProcessor.Event.onUpdate] ++ ["filter-a"].map BatchProcessor.Event.register
        ++ ["filter-a"].map BatchProcessor.Event.failTask
        ++ [BatchProcessor.Event.fire])).delivered = [] ∧
    (BatchProcessor.run (BatchProcessor.init 50)
      ([BatchProcessor.Event.onUpdate] ++ ["filter-a"].map BatchProcessor.Event.register
        ++ ["filter-a"].map BatchProcessor.Event.failTask
        ++ [BatchProcessor.Event.fire])).hasCallback = true) :=
  ⟨by decide, allFailed_batch_delivers_no_callback ["filter-a"] (by decide)⟩

end MGPUsersGraph
